import Mathlib

/-!
# Verification of the desert-sim per-frame physics kernel

Shallow embedding of the physics tick of `src/components/SimulationCanvas.tsx`
(the multi-hand module: the `app.ticker.add` callback, lines 170-382).

Modelling choices:
* The TypeScript code computes on IEEE-754 doubles / Float32Array entries.
  The embedding uses exact rational arithmetic (`ℚ`): every constant of the
  kernel (30, 0.98, 0.3, 1/60, 250, 12, 0.04, 0.001, 0.5) is an exact
  rational, so the idealisation only drops rounding, which none of the
  claims is about.
* `Math.sqrt` is an explicit function parameter `sqrtFn : ℚ → ℚ` of the
  simulation parameters.  Concrete runs instantiate it with `ratSqrt`,
  which agrees with the genuine square root on every perfect rational
  square; each concrete run below only ever extracts roots of perfect
  squares, and the theorem states the root value used so this can be
  checked.
* `Math.random() * screenW` in the respawn branch is an oracle
  `rx : ℕ → ℚ` giving the value drawn for particle `i`, passed to the tick
  alongside the other parameters.
* `Number.isFinite` cannot be modelled inside `ℚ` (every rational is
  finite), so the state carries, per particle, the flag
  `finPos i` = `Number.isFinite(x[i]) && Number.isFinite(y[i])` of the
  stored floats.  A separate `RawParticle` model keeps one finiteness flag
  per scalar for the respawn check itself (lines 213-219).
* Rendering-only statements of the callback (aura sprites, tint/colour
  gradient, sprite positions, the stats callback) touch no particle state
  and are omitted.
-/

namespace DesertSim

/-- `const GRAVITY = 30` (SimulationCanvas.tsx line 12). -/
def GRAVITY : ℚ := 30

/-- `const FRICTION_AIR = 0.98` (line 13). -/
def FRICTION_AIR : ℚ := 98 / 100

/-- `const BOUNCE_WALL = 0.3` (line 14). -/
def BOUNCE_WALL : ℚ := 3 / 10

/-- `const BOUNCE_GROUND = 0.3` (line 15). -/
def BOUNCE_GROUND : ℚ := 3 / 10

/-- `const HAND_RADIUS_SQ = 150 * 150` (line 16). -/
def HAND_RADIUS_SQ : ℚ := 150 * 150

/-- `Math.sqrt(HAND_RADIUS_SQ)` (line 236): 22500 is an exact IEEE double
and its square root is exactly 150, so the code's denominator is the
constant 150. -/
def HAND_RADIUS : ℚ := 150

/-- `const INTERACTION_FORCE = 800` (line 17). -/
def INTERACTION_FORCE : ℚ := 800

/-- `const MAX_VEL = 250` (line 261). -/
def MAX_VEL : ℚ := 250

/-- `const CELL_SIZE = 12` (line 154). -/
def CELL_SIZE : ℚ := 12

/-- `const dt = 1 / 60` (line 171): fixed nominal timestep. -/
def dt : ℚ := 1 / 60

/-- `HandGesture` (types.ts). -/
inductive HandGesture : Type
  | NONE : HandGesture
  | OPEN_PALM : HandGesture
  | CLOSED_FIST : HandGesture
deriving DecidableEq

/-- One entry of `handDataRef.current`: normalised position, gesture and
normalised velocity (`hand.velocity?.x || 0` is modelled by the plain
rational field, the `|| 0` guard only replaces a missing record by zero). -/
structure HandData : Type where
  x : ℚ
  y : ℚ
  gesture : HandGesture
  velX : ℚ
  velY : ℚ

/-- The per-tick inputs the callback closes over: the particle count, the
screen extent, the grid extent (`gridW = ceil(width/CELL_SIZE)` etc., lines
155-156, captured at setup), the hand snapshot read at tick start, and the
square-root routine.  The respawn randomness oracle is threaded separately
(`rx` below), since only the respawn branch consults it. -/
structure SimParams : Type where
  n : ℕ
  screenW : ℚ
  screenH : ℚ
  gridW : ℕ
  gridH : ℕ
  hands : List HandData
  sqrtFn : ℚ → ℚ

/-- The mutable arrays of the simulation: the structure-of-arrays particle
store `p.x/p.y/p.vx/p.vy/p.radius`, the per-particle position-finiteness
flag (see the header note), and the spatial grid's two index arrays
`gridHead` and `nextParticle` (cells hold `-1` or a particle index). -/
structure SimState : Type where
  x : ℕ → ℚ
  y : ℕ → ℚ
  vx : ℕ → ℚ
  vy : ℕ → ℚ
  radius : ℕ → ℚ
  finPos : ℕ → Bool
  gridHead : ℕ → ℤ
  nextP : ℕ → ℤ

/-- JavaScript `q | 0`: truncation toward zero (for the cell coordinates
`(p.x[i] / CELL_SIZE) | 0`, lines 303-304 and 315-316). -/
def jsTrunc (q : ℚ) : ℤ := if 0 ≤ q then ⌊q⌋ else ⌈q⌉

/-- Largest `m ≤ k + fuel` with `m * m ≤ n`, by upward scan from `k`
(structural recursion on the fuel so that it reduces inside `decide`). -/
def sqrtScan (n : ℕ) : ℕ → ℕ → ℕ
  | k, 0 => k
  | k, fuel + 1 => if (k + 1) * (k + 1) ≤ n then sqrtScan n (k + 1) fuel else k

/-- A computable rational square-root approximation used to instantiate
`sqrtFn` on concrete runs: exact on every perfect rational square
(`ratSqrt ((a/b)^2) = a/b` for `0 ≤ a/b`, since
`sqrt (a/b) = sqrt (a*b) / b`). -/
def ratSqrt (q : ℚ) : ℚ :=
  (sqrtScan (q.num.toNat * q.den) 0 (q.num.toNat * q.den) : ℚ) / (q.den : ℚ)

/-- Respawn safety (lines 213-219): a particle whose stored position is
non-finite is moved to `(Math.random() * screenW, screenH - 50)` with zero
velocity; the respawned position is finite. -/
def respawnStep (rx : ℕ → ℚ) (H : ℚ) (st : SimState) (i : ℕ) : SimState :=
  if st.finPos i then st
  else
    { st with
      x := Function.update st.x i (rx i)
      y := Function.update st.y i (H - 50)
      vx := Function.update st.vx i 0
      vy := Function.update st.vy i 0
      finPos := Function.update st.finPos i true }

/-- The running per-particle accumulator of the hand loop: the particle's
velocity (the loop writes `p.vx[i]`/`p.vy[i]` in place, lines 242-243) and
the force accumulator `ax`/`ay` (lines 221-222, 249-250). -/
structure Accum : Type where
  vx : ℚ
  vy : ℚ
  ax : ℚ
  ay : ℚ

/-- One iteration of the hand-interaction loop (lines 225-252) for a hand
and a particle at `(px, py)`. -/
def handStep (P : SimParams) (hand : HandData) (px py : ℚ) (a : Accum) : Accum :=
  let handX := hand.x * P.screenW
  let handY := hand.y * P.screenH
  let dx := px - handX
  let dy := py - handY
  let distSq := dx * dx + dy * dy
  if distSq < HAND_RADIUS_SQ then
    let dist := P.sqrtFn distSq
    -- `dx / (dist || 0.1)`: JavaScript replaces a zero denominator by 0.1
    let nx := dx / (if dist = 0 then 1 / 10 else dist)
    let ny := dy / (if dist = 0 then 1 / 10 else dist)
    let falloff := 1 - dist / HAND_RADIUS
    let handVelX := hand.velX * P.screenW * (4 / 100)
    let handVelY := hand.velY * P.screenH * (4 / 100)
    let force :=
      match hand.gesture with
      | HandGesture.OPEN_PALM => INTERACTION_FORCE * falloff
      | HandGesture.CLOSED_FIST => -INTERACTION_FORCE * falloff
      | HandGesture.NONE => 0
    { vx := a.vx + handVelX * falloff
      vy := a.vy + handVelY * falloff
      ax := a.ax + nx * force
      ay := a.ay + ny * force }
  else a

/-- The whole hand loop: `ax = 0, ay = GRAVITY` (lines 221-222) then one
`handStep` per detected hand, in order. -/
def handFold (P : SimParams) (px py vx vy : ℚ) : Accum :=
  P.hands.foldl (fun a h => handStep P h px py a) ⟨vx, vy, 0, GRAVITY⟩

/-- The per-axis velocity clamp (lines 260-265). -/
def clampVel (v : ℚ) : ℚ :=
  if v > MAX_VEL then MAX_VEL else if v < -MAX_VEL then -MAX_VEL else v

/-- Vertical boundary resolution (lines 286-292): returns the new
`(y, vy)`. -/
def boundaryY (H r y vy : ℚ) : ℚ × ℚ :=
  if y > H - r then (H - r, vy * -BOUNCE_GROUND)
  else if y < r then (r, vy * -BOUNCE_WALL)
  else (y, vy)

/-- Horizontal boundary resolution (lines 294-300): returns the new
`(x, vx)`. -/
def boundaryX (W r x vx : ℚ) : ℚ × ℚ :=
  if x > W - r then (W - r, vx * -BOUNCE_WALL)
  else if x < r then (r, vx * -BOUNCE_WALL)
  else (x, vx)

/-- The cell coordinates of a position (lines 303-304 / 315-316). -/
def cellOf (x y : ℚ) : ℤ × ℤ := (jsTrunc (x / CELL_SIZE), jsTrunc (y / CELL_SIZE))

/-- The bounds test `cx >= 0 && cx < gridW && cy >= 0 && cy < gridH`
(lines 306 / 323). -/
def inGrid (P : SimParams) (c : ℤ × ℤ) : Prop :=
  0 ≤ c.1 ∧ c.1 < (P.gridW : ℤ) ∧ 0 ≤ c.2 ∧ c.2 < (P.gridH : ℤ)

instance (P : SimParams) (c : ℤ × ℤ) : Decidable (inGrid P c) := by
  unfold inGrid; infer_instance

/-- The flat cell index `cy * gridW + cx` (lines 307 / 324). -/
def cellIdx (P : SimParams) (c : ℤ × ℤ) : ℕ := (c.2 * (P.gridW : ℤ) + c.1).toNat

/-- Grid insertion (lines 302-310): prepend `i` onto its cell's list,
skipping cells outside the grid. -/
def gridInsert (P : SimParams) (st : SimState) (i : ℕ) : SimState :=
  let c := cellOf (st.x i) (st.y i)
  if inGrid P c then
    { st with
      nextP := Function.update st.nextP i (st.gridHead (cellIdx P c))
      gridHead := Function.update st.gridHead (cellIdx P c) (i : ℤ) }
  else st

/-- The movement part of Pass 1 for one particle (lines 221-300):
force accumulation and velocity injection, semi-implicit integration with
air drag, per-axis velocity clamp, position integration with the factor 5,
boundary resolution. -/
def integMove (P : SimParams) (st : SimState) (i : ℕ) : SimState :=
  let a := handFold P (st.x i) (st.y i) (st.vx i) (st.vy i)
  let vx1 := clampVel ((a.vx + a.ax * dt) * FRICTION_AIR)
  let vy1 := clampVel ((a.vy + a.ay * dt) * FRICTION_AIR)
  let x1 := st.x i + vx1 * dt * 5
  let y1 := st.y i + vy1 * dt * 5
  let r := st.radius i
  let yb := boundaryY P.screenH r y1 vy1
  let xb := boundaryX P.screenW r x1 vx1
  { st with
    x := Function.update st.x i xb.1
    y := Function.update st.y i yb.1
    vx := Function.update st.vx i xb.2
    vy := Function.update st.vy i yb.2 }

/-- The integration part of Pass 1 for one particle (lines 221-310):
movement followed by grid insertion at the post-resolution position. -/
def pass1Integrate (P : SimParams) (st : SimState) (i : ℕ) : SimState :=
  gridInsert P (integMove P st i) i

/-- Pass 1 for one particle (lines 212-311): the respawn check followed by
integration and grid insertion. -/
def pass1Particle (P : SimParams) (rx : ℕ → ℚ) (st0 : SimState) (i : ℕ) : SimState :=
  pass1Integrate P (respawnStep rx P.screenH st0 i) i

/-- `gridHead.fill(-1)` (line 209). -/
def clearGrid (st : SimState) : SimState := { st with gridHead := fun _ => -1 }

/-- Pass 1 over all particles in index order (line 212). -/
def pass1 (P : SimParams) (rx : ℕ → ℚ) (st : SimState) : SimState :=
  (List.range P.n).foldl (pass1Particle P rx) st

/-- The state right after Pass 1 of a tick: grid cleared, then every
particle integrated and inserted. -/
def tickPass1 (P : SimParams) (rx : ℕ → ℚ) (st : SimState) : SimState :=
  pass1 P rx (clearGrid st)

/-- The linked-list walk of a cell (lines 325-328, 363-364): starting from
a head value, follow `nextParticle` until `-1`, visiting at most `fuel`
entries.  Pass 2 runs it with `fuel = 50` (`iterations < 50`). -/
def chainList (next : ℕ → ℤ) : ℕ → ℤ → List ℕ
  | 0, _ => []
  | fuel + 1, j => if j = -1 then [] else j.toNat :: chainList next fuel (next j.toNat)

/-- Pair resolution (lines 329-362): the overlap test
`distSq < rSum*rSum && distSq > 0.001`, the 50/50 positional correction,
and the half-strength impulse applied only to an approaching pair. -/
def pairStep (P : SimParams) (st : SimState) (i j : ℕ) : SimState :=
  if i = j then st
  else
    let dx := st.x i - st.x j
    let dy := st.y i - st.y j
    let distSq := dx * dx + dy * dy
    let rSum := st.radius i + st.radius j
    if distSq < rSum * rSum ∧ distSq > 1 / 1000 then
      let dist := P.sqrtFn distSq
      let overlap := rSum - dist
      let nx := dx / dist
      let ny := dy / dist
      let st1 :=
        { st with
          x := Function.update (Function.update st.x i (st.x i + nx * overlap * (1 / 2)))
            j (st.x j - nx * overlap * (1 / 2))
          y := Function.update (Function.update st.y i (st.y i + ny * overlap * (1 / 2)))
            j (st.y j - ny * overlap * (1 / 2)) }
      let dvx := st1.vx i - st1.vx j
      let dvy := st1.vy i - st1.vy j
      let dot := dvx * nx + dvy * ny
      if dot < 0 then
        { st1 with
          vx := Function.update (Function.update st1.vx i (st1.vx i - nx * dot * (1 / 2)))
            j (st1.vx j + nx * dot * (1 / 2))
          vy := Function.update (Function.update st1.vy i (st1.vy i - ny * dot * (1 / 2)))
            j (st1.vy j + ny * dot * (1 / 2)) }
      else st1
    else st

/-- Pass 2's scan of one cell for particle `i` (lines 324-365): fold the
pair resolution over the at most 50 visited entries of the cell's list.
`nextParticle` and `gridHead` are not written during Pass 2, so the list of
visited indices is fixed by the state at the start of the scan. -/
def resolveCell (P : SimParams) (st : SimState) (i : ℕ) (cell : ℕ) : SimState :=
  (chainList st.nextP 50 (st.gridHead cell)).foldl (fun s j => pairStep P s i j) st

/-- The in-grid cells of the 3x3 neighbourhood of cell `(cx, cy)`, in the
loop order of lines 318-323 (`dy` outer, `dx` inner, out-of-range cells
skipped). -/
def neighborCells (P : SimParams) (cx cy : ℤ) : List ℕ :=
  ([-1, 0, 1] : List ℤ).flatMap fun dy =>
    ([-1, 0, 1] : List ℤ).filterMap fun dx =>
      if inGrid P (cx + dx, cy + dy) then some (cellIdx P (cx + dx, cy + dy)) else none

/-- Pass 2 for one particle (lines 314-368): recompute its cell, then scan
the 3x3 neighbourhood. -/
def pass2Particle (P : SimParams) (st : SimState) (i : ℕ) : SimState :=
  let c := cellOf (st.x i) (st.y i)
  (neighborCells P c.1 c.2).foldl (fun s cell => resolveCell P s i cell) st

/-- Pass 2 over all particles in index order (line 314). -/
def pass2 (P : SimParams) (st : SimState) : SimState :=
  (List.range P.n).foldl (pass2Particle P) st

/-- One full physics tick (lines 170-382): clear the grid, Pass 1, Pass 2. -/
def tick (P : SimParams) (rx : ℕ → ℚ) (st : SimState) : SimState :=
  pass2 P (tickPass1 P rx st)

/-- One particle as stored in the Float32Arrays, with one
`Number.isFinite` flag per scalar, for the respawn check itself. -/
structure RawParticle : Type where
  x : ℚ
  y : ℚ
  vx : ℚ
  vy : ℚ
  xFin : Bool
  yFin : Bool
  vxFin : Bool
  vyFin : Bool
deriving DecidableEq

/-- The respawn check of lines 213-219 at full fidelity:
`if (!Number.isFinite(p.x[i]) || !Number.isFinite(p.y[i]))` then respawn at
`(Math.random() * screenW, screenH - 50)` with zero velocity.  The stored
velocity's finiteness is not consulted. -/
def respawnCheck (randX H : ℚ) (q : RawParticle) : RawParticle :=
  if !q.xFin || !q.yFin then
    { x := randX, y := H - 50, vx := 0, vy := 0
      xFin := true, yFin := true, vxFin := true, vyFin := true }
  else q

/-- The number of collision candidates particle `i` examines in Pass 2
(ghost observer of `pass2Particle`'s structure): the total number of
entries visited over the at-most-9 neighbour cells, each cell's list
walked with the 50-entry cap. -/
def pass2Candidates (P : SimParams) (st : SimState) (i : ℕ) : ℕ :=
  ((neighborCells P (cellOf (st.x i) (st.y i)).1 (cellOf (st.x i) (st.y i)).2).map
    (fun cell => (chainList st.nextP 50 (st.gridHead cell)).length)).sum

/-! ### Concrete runs

Fully explicit parameter/state values on which the counterexamples and
witnesses below evaluate the tick.  All of them use a 120x120 screen (so a
10x10 grid of 12-pixel cells), no detected hands, `ratSqrt` for
`Math.sqrt` (each run only extracts roots of perfect squares, and the
root values used are stated in the theorems), and a constant randomness
oracle that is never consulted (`finPos` is everywhere `true`). -/

/-- The randomness oracle of the concrete runs; it is never consulted
(`finPos` is everywhere `true`). -/
def zeroRand : ℕ → ℚ := fun _ => 0

/-- Parameters of the two-particle concrete runs. -/
def cexParams : SimParams :=
  { n := 2, screenW := 120, screenH := 120, gridW := 10, gridH := 10
    hands := [], sqrtFn := ratSqrt }

/-- Pre-tick state for the C1 counterexample: two resting particles of
radius 3 overlapping horizontally (centres 4 apart), the left one exactly
against the left wall, both exactly on the ground.  The state satisfies the
claimed invariant (positions within `[radius, screen - radius]`, zero
velocities). -/
def cexStateC1 : SimState :=
  { x := fun i => if i = 0 then 3 else if i = 1 then 7 else 0
    y := fun i => if i = 0 then 117 else if i = 1 then 117 else 0
    vx := fun _ => 0
    vy := fun _ => 0
    radius := fun i => if i < 2 then 3 else 0
    finPos := fun _ => true
    gridHead := fun _ => -1
    nextP := fun _ => -1 }

/-- Pre-tick state for the C2 counterexample: two particles of radius 3
placed so that after Pass 1 (drag brings `vx` to 245, gravity and drag set
`vy 0 = 0` and `vy 1 = 245`) they overlap along the direction `(3, 4)/5`
while approaching; every pre-tick velocity component is within
`±MAX_VEL`. -/
def cexStateC2 : SimState :=
  { x := fun i => if i = 0 then 475 / 12 else if i = 1 then 457 / 12 else 0
    y := fun i => if i = 0 then 62 else if i = 1 then 475 / 12 else 0
    vx := fun i => if i < 2 then 250 else 0
    vy := fun i => if i = 0 then -(1 / 2) else if i = 1 then 499 / 2 else 0
    radius := fun i => if i < 2 then 3 else 0
    finPos := fun _ => true
    gridHead := fun _ => -1
    nextP := fun _ => -1 }

/-- State for the C5 counterexample: two resting particles of radius 3
whose centres are `(1/100, 1/50)` apart, so their squared distance is
`1/2000`: positive and far below `(r_i + r_j)^2 = 36`, but not above the
code's `0.001` threshold. -/
def cexStateC5 : SimState :=
  { x := fun i => if i = 0 then 50 else if i = 1 then 50 + 1 / 100 else 0
    y := fun i => if i = 0 then 50 else if i = 1 then 50 + 1 / 50 else 0
    vx := fun _ => 0
    vy := fun _ => 0
    radius := fun i => if i < 2 then 3 else 0
    finPos := fun _ => true
    gridHead := fun _ => -1
    nextP := fun _ => -1 }

/-- A stored particle whose position scalars are finite but whose `vx`
float is non-finite, for the C6 counterexample. -/
def cexRawC6 : RawParticle :=
  { x := 7, y := 8, vx := 3, vy := 4
    xFin := true, yFin := true, vxFin := false, vyFin := true }

/-- Parameters of the one-particle concrete runs (witnesses). -/
def witParams : SimParams :=
  { n := 1, screenW := 120, screenH := 120, gridW := 10, gridH := 10
    hands := [], sqrtFn := ratSqrt }

/-- A one-particle state: radius 3, at rest in mid-screen. -/
def witState : SimState :=
  { x := fun _ => 60
    y := fun _ => 60
    vx := fun _ => 0
    vy := fun _ => 0
    radius := fun i => if i = 0 then 3 else 0
    finPos := fun _ => true
    gridHead := fun _ => -1
    nextP := fun _ => -1 }

/-- A hand record for the C4 witness: open palm at the top-left corner,
at rest. -/
def witHand : HandData :=
  { x := 0, y := 0, gesture := HandGesture.OPEN_PALM, velX := 0, velY := 0 }

end DesertSim

/-! ## Frame and shape lemmas -/

namespace DesertSim

theorem respawnStep_of_finPos {rx : ℕ → ℚ} {H : ℚ} {st : SimState} {i : ℕ}
    (h : st.finPos i = true) : respawnStep rx H st i = st := by
  simp [respawnStep, h]

theorem respawnStep_radius (rx : ℕ → ℚ) (H : ℚ) (st : SimState) (i : ℕ) :
    (respawnStep rx H st i).radius = st.radius := by
  unfold respawnStep; split <;> rfl

theorem respawnStep_grid (rx : ℕ → ℚ) (H : ℚ) (st : SimState) (i : ℕ) :
    (respawnStep rx H st i).gridHead = st.gridHead ∧
      (respawnStep rx H st i).nextP = st.nextP := by
  unfold respawnStep; split <;> exact ⟨rfl, rfl⟩

theorem respawnStep_x_other {rx : ℕ → ℚ} {H : ℚ} {st : SimState} {i j : ℕ} (h : j ≠ i) :
    (respawnStep rx H st i).x j = st.x j := by
  unfold respawnStep; split
  · rfl
  · exact Function.update_noteq h _ _

theorem respawnStep_y_other {rx : ℕ → ℚ} {H : ℚ} {st : SimState} {i j : ℕ} (h : j ≠ i) :
    (respawnStep rx H st i).y j = st.y j := by
  unfold respawnStep; split
  · rfl
  · exact Function.update_noteq h _ _

theorem respawnStep_vx_other {rx : ℕ → ℚ} {H : ℚ} {st : SimState} {i j : ℕ} (h : j ≠ i) :
    (respawnStep rx H st i).vx j = st.vx j := by
  unfold respawnStep; split
  · rfl
  · exact Function.update_noteq h _ _

theorem respawnStep_vy_other {rx : ℕ → ℚ} {H : ℚ} {st : SimState} {i j : ℕ} (h : j ≠ i) :
    (respawnStep rx H st i).vy j = st.vy j := by
  unfold respawnStep; split
  · rfl
  · exact Function.update_noteq h _ _

theorem respawnStep_finPos_other {rx : ℕ → ℚ} {H : ℚ} {st : SimState} {i j : ℕ} (h : j ≠ i) :
    (respawnStep rx H st i).finPos j = st.finPos j := by
  unfold respawnStep; split
  · rfl
  · exact Function.update_noteq h _ _

theorem gridInsert_x (P : SimParams) (st : SimState) (i : ℕ) :
    (gridInsert P st i).x = st.x := by
  simp only [gridInsert]; split <;> rfl

theorem gridInsert_y (P : SimParams) (st : SimState) (i : ℕ) :
    (gridInsert P st i).y = st.y := by
  simp only [gridInsert]; split <;> rfl

theorem gridInsert_vx (P : SimParams) (st : SimState) (i : ℕ) :
    (gridInsert P st i).vx = st.vx := by
  simp only [gridInsert]; split <;> rfl

theorem gridInsert_vy (P : SimParams) (st : SimState) (i : ℕ) :
    (gridInsert P st i).vy = st.vy := by
  simp only [gridInsert]; split <;> rfl

theorem gridInsert_radius (P : SimParams) (st : SimState) (i : ℕ) :
    (gridInsert P st i).radius = st.radius := by
  simp only [gridInsert]; split <;> rfl

theorem gridInsert_finPos (P : SimParams) (st : SimState) (i : ℕ) :
    (gridInsert P st i).finPos = st.finPos := by
  simp only [gridInsert]; split <;> rfl

/-! ## Clamp and boundary bounds -/

theorem clampVel_bounds (v : ℚ) : -MAX_VEL ≤ clampVel v ∧ clampVel v ≤ MAX_VEL := by
  unfold clampVel MAX_VEL
  split_ifs <;> constructor <;> linarith

theorem boundaryX_bounds (W r x vx : ℚ) (h : 2 * r ≤ W) :
    r ≤ (boundaryX W r x vx).1 ∧ (boundaryX W r x vx).1 ≤ W - r := by
  unfold boundaryX
  split_ifs <;> constructor <;> simp only [] <;> linarith

theorem boundaryY_bounds (H r y vy : ℚ) (h : 2 * r ≤ H) :
    r ≤ (boundaryY H r y vy).1 ∧ (boundaryY H r y vy).1 ≤ H - r := by
  unfold boundaryY
  split_ifs <;> constructor <;> simp only [] <;> linarith

theorem boundaryX_vel_bounds (W r x vx : ℚ) (h : -MAX_VEL ≤ vx ∧ vx ≤ MAX_VEL) :
    -MAX_VEL ≤ (boundaryX W r x vx).2 ∧ (boundaryX W r x vx).2 ≤ MAX_VEL := by
  unfold boundaryX BOUNCE_WALL
  unfold MAX_VEL at h ⊢
  split_ifs <;> constructor <;> simp only [] <;> linarith

theorem boundaryY_vel_bounds (H r y vy : ℚ) (h : -MAX_VEL ≤ vy ∧ vy ≤ MAX_VEL) :
    -MAX_VEL ≤ (boundaryY H r y vy).2 ∧ (boundaryY H r y vy).2 ≤ MAX_VEL := by
  unfold boundaryY BOUNCE_GROUND BOUNCE_WALL
  unfold MAX_VEL at h ⊢
  split_ifs <;> constructor <;> simp only [] <;> linarith

end DesertSim

namespace DesertSim

theorem pass1Particle_radius (P : SimParams) (rx : ℕ → ℚ) (st0 : SimState) (i : ℕ) :
    (pass1Particle P rx st0 i).radius = st0.radius := by
  unfold pass1Particle pass1Integrate integMove
  simp only [gridInsert_radius]
  exact respawnStep_radius rx P.screenH st0 i

theorem pass1Particle_x_other {P : SimParams} {rx : ℕ → ℚ} {st0 : SimState} {i j : ℕ}
    (h : j ≠ i) : (pass1Particle P rx st0 i).x j = st0.x j := by
  unfold pass1Particle pass1Integrate integMove
  simp only [gridInsert_x, Function.update_noteq h]
  exact respawnStep_x_other h

theorem pass1Particle_y_other {P : SimParams} {rx : ℕ → ℚ} {st0 : SimState} {i j : ℕ}
    (h : j ≠ i) : (pass1Particle P rx st0 i).y j = st0.y j := by
  unfold pass1Particle pass1Integrate integMove
  simp only [gridInsert_y, Function.update_noteq h]
  exact respawnStep_y_other h

theorem pass1Particle_vx_other {P : SimParams} {rx : ℕ → ℚ} {st0 : SimState} {i j : ℕ}
    (h : j ≠ i) : (pass1Particle P rx st0 i).vx j = st0.vx j := by
  unfold pass1Particle pass1Integrate integMove
  simp only [gridInsert_vx, Function.update_noteq h]
  exact respawnStep_vx_other h

theorem pass1Particle_vy_other {P : SimParams} {rx : ℕ → ℚ} {st0 : SimState} {i j : ℕ}
    (h : j ≠ i) : (pass1Particle P rx st0 i).vy j = st0.vy j := by
  unfold pass1Particle pass1Integrate integMove
  simp only [gridInsert_vy, Function.update_noteq h]
  exact respawnStep_vy_other h

theorem pass1Particle_bounds (P : SimParams) (rx : ℕ → ℚ) (st0 : SimState) (i : ℕ)
    (hW : 2 * st0.radius i ≤ P.screenW) (hH : 2 * st0.radius i ≤ P.screenH) :
    (st0.radius i ≤ (pass1Particle P rx st0 i).x i ∧
        (pass1Particle P rx st0 i).x i ≤ P.screenW - st0.radius i) ∧
      st0.radius i ≤ (pass1Particle P rx st0 i).y i ∧
        (pass1Particle P rx st0 i).y i ≤ P.screenH - st0.radius i := by
  have hr : (respawnStep rx P.screenH st0 i).radius i = st0.radius i := by
    rw [respawnStep_radius]
  unfold pass1Particle pass1Integrate integMove
  simp only [gridInsert_x, gridInsert_y, Function.update_same, hr]
  exact ⟨boundaryX_bounds _ _ _ _ hW, boundaryY_bounds _ _ _ _ hH⟩

theorem pass1Particle_vel_bounds (P : SimParams) (rx : ℕ → ℚ) (st0 : SimState) (i : ℕ) :
    (-MAX_VEL ≤ (pass1Particle P rx st0 i).vx i ∧
        (pass1Particle P rx st0 i).vx i ≤ MAX_VEL) ∧
      -MAX_VEL ≤ (pass1Particle P rx st0 i).vy i ∧
        (pass1Particle P rx st0 i).vy i ≤ MAX_VEL := by
  unfold pass1Particle pass1Integrate integMove
  simp only [gridInsert_vx, gridInsert_vy, Function.update_same]
  exact ⟨boundaryX_vel_bounds _ _ _ _ (clampVel_bounds _),
    boundaryY_vel_bounds _ _ _ _ (clampVel_bounds _)⟩

/-! ## Fold helpers -/

theorem foldl_range_succ {α : Type} (f : α → ℕ → α) (a : α) (n : ℕ) :
    (List.range (n + 1)).foldl f a = f ((List.range n).foldl f a) n := by
  rw [List.range_succ, List.foldl_append]
  rfl

theorem foldl_preserve {α β : Type} {Q : α → Prop} {f : α → β → α}
    (h : ∀ a b, Q a → Q (f a b)) : ∀ (l : List β) (a : α), Q a → Q (l.foldl f a)
  | [], _, ha => ha
  | b :: l, a, ha => foldl_preserve h l (f a b) (h a b ha)

theorem pass1_radius (P : SimParams) (rx : ℕ → ℚ) (st : SimState) :
    (pass1 P rx st).radius = st.radius := by
  unfold pass1
  exact foldl_preserve (Q := fun s => s.radius = st.radius) (f := pass1Particle P rx)
    (fun s i hs => by simp only [pass1Particle_radius]; exact hs) (List.range P.n) st rfl

/-- After the Pass-1 fold over particles `0..k-1`, any particle `i < k`
whose diameter fits the screen is inside `[radius, screen - radius]` on both
axes. -/
theorem pass1_fold_bounds (P : SimParams) (rx : ℕ → ℚ) :
    ∀ (k : ℕ) (st : SimState) (i : ℕ), i < k →
      2 * st.radius i ≤ P.screenW → 2 * st.radius i ≤ P.screenH →
      (st.radius i ≤ ((List.range k).foldl (pass1Particle P rx) st).x i ∧
          ((List.range k).foldl (pass1Particle P rx) st).x i ≤ P.screenW - st.radius i) ∧
        st.radius i ≤ ((List.range k).foldl (pass1Particle P rx) st).y i ∧
          ((List.range k).foldl (pass1Particle P rx) st).y i ≤ P.screenH - st.radius i := by
  intro k
  induction k with
  | zero => intro st i hi; omega
  | succ k ih =>
    intro st i hi hW hH
    rw [foldl_range_succ]
    set stk := (List.range k).foldl (pass1Particle P rx) st with hstk
    have hrad : stk.radius = st.radius := by
      rw [hstk]
      exact foldl_preserve (Q := fun s => s.radius = st.radius) (f := pass1Particle P rx)
        (fun s j hs => by simp only [pass1Particle_radius]; exact hs) (List.range k) st rfl
    rcases Nat.lt_succ_iff_lt_or_eq.mp hi with hlt | heq
    · have := ih st i hlt hW hH
      rw [pass1Particle_x_other (Nat.ne_of_lt (lt_of_lt_of_le hlt (Nat.le_refl k)) : i ≠ k),
        pass1Particle_y_other (Nat.ne_of_lt hlt : i ≠ k)]
      exact this
    · subst heq
      have hb := pass1Particle_bounds P rx stk i (by rw [hrad]; exact hW) (by rw [hrad]; exact hH)
      rw [hrad] at hb
      exact hb

/-- After the Pass-1 fold over particles `0..k-1`, every particle `i < k`
has both velocity components within `±MAX_VEL`. -/
theorem pass1_fold_vel_bounds (P : SimParams) (rx : ℕ → ℚ) :
    ∀ (k : ℕ) (st : SimState) (i : ℕ), i < k →
      (-MAX_VEL ≤ ((List.range k).foldl (pass1Particle P rx) st).vx i ∧
          ((List.range k).foldl (pass1Particle P rx) st).vx i ≤ MAX_VEL) ∧
        -MAX_VEL ≤ ((List.range k).foldl (pass1Particle P rx) st).vy i ∧
          ((List.range k).foldl (pass1Particle P rx) st).vy i ≤ MAX_VEL := by
  intro k
  induction k with
  | zero => intro st i hi; omega
  | succ k ih =>
    intro st i hi
    rw [foldl_range_succ]
    rcases Nat.lt_succ_iff_lt_or_eq.mp hi with hlt | heq
    · rw [pass1Particle_vx_other (Nat.ne_of_lt hlt : i ≠ k),
        pass1Particle_vy_other (Nat.ne_of_lt hlt : i ≠ k)]
      exact ih st i hlt
    · subst heq
      exact pass1Particle_vel_bounds P rx _ i

end DesertSim

namespace DesertSim

theorem pairStep_radius (P : SimParams) (st : SimState) (i j : ℕ) :
    (pairStep P st i j).radius = st.radius := by
  simp only [pairStep]
  split_ifs <;> rfl

theorem pairStep_finPos (P : SimParams) (st : SimState) (i j : ℕ) :
    (pairStep P st i j).finPos = st.finPos := by
  simp only [pairStep]
  split_ifs <;> rfl

theorem pairStep_gridHead (P : SimParams) (st : SimState) (i j : ℕ) :
    (pairStep P st i j).gridHead = st.gridHead := by
  simp only [pairStep]
  split_ifs <;> rfl

theorem pairStep_nextP (P : SimParams) (st : SimState) (i j : ℕ) :
    (pairStep P st i j).nextP = st.nextP := by
  simp only [pairStep]
  split_ifs <;> rfl

/-- One pair resolution conserves the pairwise sums of both velocity
components and of both position components. -/
theorem pairStep_conserve (P : SimParams) (st : SimState) (i j : ℕ) (hij : i ≠ j) :
    (pairStep P st i j).vx i + (pairStep P st i j).vx j = st.vx i + st.vx j ∧
      (pairStep P st i j).vy i + (pairStep P st i j).vy j = st.vy i + st.vy j ∧
      (pairStep P st i j).x i + (pairStep P st i j).x j = st.x i + st.x j ∧
      (pairStep P st i j).y i + (pairStep P st i j).y j = st.y i + st.y j := by
  simp only [pairStep, if_neg hij]
  split_ifs with h1 h2 <;>
    simp only [Function.update_same, Function.update_noteq hij] <;>
    refine ⟨by ring, by ring, by ring, by ring⟩

theorem resolveCell_radius (P : SimParams) (st : SimState) (i cell : ℕ) :
    (resolveCell P st i cell).radius = st.radius := by
  unfold resolveCell
  exact foldl_preserve (Q := fun s => s.radius = st.radius) (f := fun s j => pairStep P s i j)
    (fun s j hs => by simp only [pairStep_radius]; exact hs) _ st rfl

theorem pass2Particle_radius (P : SimParams) (st : SimState) (i : ℕ) :
    (pass2Particle P st i).radius = st.radius := by
  unfold pass2Particle
  exact foldl_preserve (Q := fun s => s.radius = st.radius)
    (f := fun s cell => resolveCell P s i cell)
    (fun s cell hs => by simp only [resolveCell_radius]; exact hs) _ st rfl

theorem pass2_radius (P : SimParams) (st : SimState) :
    (pass2 P st).radius = st.radius := by
  unfold pass2
  exact foldl_preserve (Q := fun s => s.radius = st.radius) (f := pass2Particle P)
    (fun s i hs => by simp only [pass2Particle_radius]; exact hs) _ st rfl

theorem tick_radius (P : SimParams) (rx : ℕ → ℚ) (st : SimState) :
    (tick P rx st).radius = st.radius := by
  unfold tick tickPass1
  rw [pass2_radius, pass1_radius]
  rfl

end DesertSim

namespace DesertSim

/-- Outside the window `0.001 < distSq < (r_i + r_j)^2` (or against itself)
the pair resolution does nothing. -/
theorem pairStep_no_action (P : SimParams) (st : SimState) (i j : ℕ)
    (h : i = j ∨
      ¬((st.x i - st.x j) * (st.x i - st.x j) + (st.y i - st.y j) * (st.y i - st.y j)
          < (st.radius i + st.radius j) * (st.radius i + st.radius j) ∧
        (st.x i - st.x j) * (st.x i - st.x j) + (st.y i - st.y j) * (st.y i - st.y j)
          > 1 / 1000)) :
    pairStep P st i j = st := by
  rcases h with h | h
  · simp [pairStep, h]
  · simp only [pairStep]
    split_ifs with hij
    · rfl
    · rfl

/-- Inside the window the pair resolution applies the 50/50 positional
correction along the contact normal. -/
theorem pairStep_correction (P : SimParams) (st : SimState) (i j : ℕ) (hij : i ≠ j)
    (h : (st.x i - st.x j) * (st.x i - st.x j) + (st.y i - st.y j) * (st.y i - st.y j)
          < (st.radius i + st.radius j) * (st.radius i + st.radius j) ∧
        (st.x i - st.x j) * (st.x i - st.x j) + (st.y i - st.y j) * (st.y i - st.y j)
          > 1 / 1000) :
    (pairStep P st i j).x i =
        st.x i + (st.x i - st.x j) /
            P.sqrtFn ((st.x i - st.x j) * (st.x i - st.x j) + (st.y i - st.y j) * (st.y i - st.y j)) *
            (st.radius i + st.radius j -
              P.sqrtFn ((st.x i - st.x j) * (st.x i - st.x j) + (st.y i - st.y j) * (st.y i - st.y j))) *
            (1 / 2) ∧
      (pairStep P st i j).x j =
        st.x j - (st.x i - st.x j) /
            P.sqrtFn ((st.x i - st.x j) * (st.x i - st.x j) + (st.y i - st.y j) * (st.y i - st.y j)) *
            (st.radius i + st.radius j -
              P.sqrtFn ((st.x i - st.x j) * (st.x i - st.x j) + (st.y i - st.y j) * (st.y i - st.y j))) *
            (1 / 2) ∧
      (pairStep P st i j).y i =
        st.y i + (st.y i - st.y j) /
            P.sqrtFn ((st.x i - st.x j) * (st.x i - st.x j) + (st.y i - st.y j) * (st.y i - st.y j)) *
            (st.radius i + st.radius j -
              P.sqrtFn ((st.x i - st.x j) * (st.x i - st.x j) + (st.y i - st.y j) * (st.y i - st.y j))) *
            (1 / 2) ∧
      (pairStep P st i j).y j =
        st.y j - (st.y i - st.y j) /
            P.sqrtFn ((st.x i - st.x j) * (st.x i - st.x j) + (st.y i - st.y j) * (st.y i - st.y j)) *
            (st.radius i + st.radius j -
              P.sqrtFn ((st.x i - st.x j) * (st.x i - st.x j) + (st.y i - st.y j) * (st.y i - st.y j))) *
            (1 / 2) := by
  simp only [pairStep, if_neg hij, if_pos h]
  split_ifs with hdot <;>
    simp [Function.update_same, Function.update_noteq hij, Function.update_noteq (Ne.symm hij)]

end DesertSim

namespace DesertSim

/-- C4: for a particle at distance `0 < d < interactionRadius` from a hand
(`d` the exact root of the squared distance), the hand-induced acceleration
is `force/d` times the offset vector from hand to particle, with
`force = INTERACTION_FORCE * falloff > 0` for OPEN_PALM (pointing away from
the hand), `force = -INTERACTION_FORCE * falloff < 0` for CLOSED_FIST
(pointing toward the hand), and zero for NONE; in the two active cases its
squared magnitude is `(INTERACTION_FORCE * falloff)^2`, i.e. the magnitude
is `interactionForce * falloff`. -/
theorem handStep_force (P : SimParams) (hand : HandData) (px py : ℚ) (a : Accum)
    (dx dy d : ℚ)
    (hdx : dx = px - hand.x * P.screenW)
    (hdy : dy = py - hand.y * P.screenH)
    (hin : dx * dx + dy * dy < HAND_RADIUS_SQ)
    (hd : d = P.sqrtFn (dx * dx + dy * dy))
    (hdsq : d * d = dx * dx + dy * dy)
    (hd0 : 0 < d) :
    (hand.gesture = HandGesture.OPEN_PALM →
      ((handStep P hand px py a).ax - a.ax = INTERACTION_FORCE * (1 - d / HAND_RADIUS) / d * dx ∧
        (handStep P hand px py a).ay - a.ay = INTERACTION_FORCE * (1 - d / HAND_RADIUS) / d * dy) ∧
      0 < INTERACTION_FORCE * (1 - d / HAND_RADIUS) / d ∧
      ((handStep P hand px py a).ax - a.ax) * ((handStep P hand px py a).ax - a.ax) +
          ((handStep P hand px py a).ay - a.ay) * ((handStep P hand px py a).ay - a.ay) =
        (INTERACTION_FORCE * (1 - d / HAND_RADIUS)) * (INTERACTION_FORCE * (1 - d / HAND_RADIUS)) ∧
      0 < INTERACTION_FORCE * (1 - d / HAND_RADIUS)) ∧
    (hand.gesture = HandGesture.CLOSED_FIST →
      ((handStep P hand px py a).ax - a.ax = -(INTERACTION_FORCE * (1 - d / HAND_RADIUS) / d) * dx ∧
        (handStep P hand px py a).ay - a.ay = -(INTERACTION_FORCE * (1 - d / HAND_RADIUS) / d) * dy) ∧
      0 < INTERACTION_FORCE * (1 - d / HAND_RADIUS) / d ∧
      ((handStep P hand px py a).ax - a.ax) * ((handStep P hand px py a).ax - a.ax) +
          ((handStep P hand px py a).ay - a.ay) * ((handStep P hand px py a).ay - a.ay) =
        (INTERACTION_FORCE * (1 - d / HAND_RADIUS)) * (INTERACTION_FORCE * (1 - d / HAND_RADIUS))) ∧
    (hand.gesture = HandGesture.NONE →
      (handStep P hand px py a).ax - a.ax = 0 ∧ (handStep P hand px py a).ay - a.ay = 0) := by
  have hne : d ≠ 0 := ne_of_gt hd0
  have hd150 : d < 150 := by
    by_contra hge
    push_neg at hge
    have h22 : (150 : ℚ) * 150 ≤ d * d :=
      mul_le_mul hge hge (by norm_num) (le_trans (by norm_num) hge)
    rw [hdsq] at h22
    unfold HAND_RADIUS_SQ at hin
    linarith
  have hfall : 0 < 1 - d / HAND_RADIUS := by
    unfold HAND_RADIUS
    have h1 : d / 150 < 1 := (div_lt_one (by norm_num)).mpr hd150
    linarith
  have hcoef : 0 < INTERACTION_FORCE * (1 - d / HAND_RADIUS) / d :=
    div_pos (mul_pos (by norm_num [INTERACTION_FORCE]) hfall) hd0
  have hmagpos : 0 < INTERACTION_FORCE * (1 - d / HAND_RADIUS) :=
    mul_pos (by norm_num [INTERACTION_FORCE]) hfall
  have key : ∀ u v c : ℚ,
      (u + dx / d * c - u) * (u + dx / d * c - u) + (v + dy / d * c - v) * (v + dy / d * c - v) =
        c * c := by
    intro u v c
    have h1 : u + dx / d * c - u = c / d * dx := by ring
    have h2 : v + dy / d * c - v = c / d * dy := by ring
    rw [h1, h2]
    calc c / d * dx * (c / d * dx) + c / d * dy * (c / d * dy)
        = c * c * ((dx * dx + dy * dy) / (d * d)) := by ring
      _ = c * c := by rw [← hdsq, div_self (mul_ne_zero hne hne), mul_one]
  simp only [handStep]
  rw [← hdx, ← hdy, if_pos hin, ← hd, if_neg hne]
  refine ⟨fun hg => ?_, fun hg => ?_, fun hg => ?_⟩ <;> simp only [hg]
  · refine ⟨⟨by ring, by ring⟩, hcoef, ?_, hmagpos⟩
    exact key a.ax a.ay (INTERACTION_FORCE * (1 - d / HAND_RADIUS))
  · refine ⟨⟨by ring, by ring⟩, hcoef, ?_⟩
    calc (a.ax + dx / d * (-INTERACTION_FORCE * (1 - d / HAND_RADIUS)) - a.ax) *
            (a.ax + dx / d * (-INTERACTION_FORCE * (1 - d / HAND_RADIUS)) - a.ax) +
          (a.ay + dy / d * (-INTERACTION_FORCE * (1 - d / HAND_RADIUS)) - a.ay) *
            (a.ay + dy / d * (-INTERACTION_FORCE * (1 - d / HAND_RADIUS)) - a.ay)
        = -INTERACTION_FORCE * (1 - d / HAND_RADIUS) * (-INTERACTION_FORCE * (1 - d / HAND_RADIUS)) :=
          key a.ax a.ay (-INTERACTION_FORCE * (1 - d / HAND_RADIUS))
      _ = INTERACTION_FORCE * (1 - d / HAND_RADIUS) * (INTERACTION_FORCE * (1 - d / HAND_RADIUS)) := by
          ring
  · exact ⟨by ring, by ring⟩

/-! ## Oracle independence (C10) -/

theorem pass1Particle_randX (P : SimParams) (r1 r2 : ℕ → ℚ) (st : SimState) (i : ℕ)
    (h : st.finPos i = true) :
    pass1Particle P r1 st i = pass1Particle P r2 st i := by
  unfold pass1Particle
  rw [respawnStep_of_finPos h, respawnStep_of_finPos h]

theorem pass1Particle_finPos_true (P : SimParams) (rx : ℕ → ℚ) (st : SimState) (i j : ℕ)
    (h : st.finPos j = true) : (pass1Particle P rx st i).finPos j = true := by
  unfold pass1Particle pass1Integrate integMove
  simp only [gridInsert_finPos]
  unfold respawnStep
  split
  · exact h
  · by_cases hji : j = i
    · subst hji; simp
    · simp [Function.update_noteq hji, h]

theorem pass1_fold_randX (P : SimParams) (r1 r2 : ℕ → ℚ) :
    ∀ (k : ℕ) (st : SimState), (∀ j, j < k → st.finPos j = true) →
      (List.range k).foldl (pass1Particle P r1) st =
        (List.range k).foldl (pass1Particle P r2) st := by
  intro k
  induction k with
  | zero => intro st _; simp only [List.range_zero, List.foldl_nil]
  | succ k ih =>
    intro st h
    have hstep := ih st (fun j hj => h j (Nat.lt_succ_of_lt hj))
    have hfk : ((List.range k).foldl (pass1Particle P r2) st).finPos k = true :=
      foldl_preserve (Q := fun s => s.finPos k = true) (f := pass1Particle P r2)
        (fun s j hs => pass1Particle_finPos_true P r2 s j k hs) (List.range k) st
        (h k (Nat.lt_succ_self k))
    calc (List.range (k + 1)).foldl (pass1Particle P r1) st
        = pass1Particle P r1 ((List.range k).foldl (pass1Particle P r1) st) k :=
          foldl_range_succ _ _ _
      _ = pass1Particle P r1 ((List.range k).foldl (pass1Particle P r2) st) k := by
          rw [hstep]
      _ = pass1Particle P r2 ((List.range k).foldl (pass1Particle P r2) st) k :=
          pass1Particle_randX P r1 r2 _ k hfk
      _ = (List.range (k + 1)).foldl (pass1Particle P r2) st :=
          (foldl_range_succ _ _ _).symm

theorem tick_randX (P : SimParams) (r1 r2 : ℕ → ℚ) (st : SimState)
    (h : ∀ j, j < P.n → st.finPos j = true) :
    tick P r1 st = tick P r2 st := by
  have h2 : ∀ j, j < P.n → (clearGrid st).finPos j = true := h
  unfold tick tickPass1 pass1
  rw [pass1_fold_randX P r1 r2 P.n (clearGrid st) h2]

end DesertSim

namespace DesertSim

/-! ## Grid structure after Pass 1 (C7) -/

theorem integMove_grid (P : SimParams) (st : SimState) (i : ℕ) :
    (integMove P st i).gridHead = st.gridHead ∧ (integMove P st i).nextP = st.nextP :=
  ⟨rfl, rfl⟩

theorem gridInsert_gridHead (P : SimParams) (M : SimState) (i : ℕ) :
    (gridInsert P M i).gridHead =
      if inGrid P (cellOf (M.x i) (M.y i)) then
        Function.update M.gridHead (cellIdx P (cellOf (M.x i) (M.y i))) (i : ℤ)
      else M.gridHead := by
  simp only [gridInsert]
  split_ifs <;> rfl

theorem gridInsert_nextP (P : SimParams) (M : SimState) (i : ℕ) :
    (gridInsert P M i).nextP =
      if inGrid P (cellOf (M.x i) (M.y i)) then
        Function.update M.nextP i (M.gridHead (cellIdx P (cellOf (M.x i) (M.y i))))
      else M.nextP := by
  simp only [gridInsert]
  split_ifs <;> rfl

theorem pass1Particle_x_self_eq (P : SimParams) (rx : ℕ → ℚ) (st : SimState) (i : ℕ) :
    (pass1Particle P rx st i).x i = (integMove P (respawnStep rx P.screenH st i) i).x i ∧
      (pass1Particle P rx st i).y i = (integMove P (respawnStep rx P.screenH st i) i).y i := by
  unfold pass1Particle pass1Integrate
  rw [gridInsert_x, gridInsert_y]
  exact ⟨rfl, rfl⟩

theorem pass1Particle_gridHead (P : SimParams) (rx : ℕ → ℚ) (st : SimState) (i : ℕ) :
    (pass1Particle P rx st i).gridHead =
      if inGrid P (cellOf ((pass1Particle P rx st i).x i) ((pass1Particle P rx st i).y i)) then
        Function.update st.gridHead
          (cellIdx P (cellOf ((pass1Particle P rx st i).x i) ((pass1Particle P rx st i).y i)))
          (i : ℤ)
      else st.gridHead := by
  rw [(pass1Particle_x_self_eq P rx st i).1, (pass1Particle_x_self_eq P rx st i).2]
  unfold pass1Particle pass1Integrate
  rw [gridInsert_gridHead]
  rw [(integMove_grid P (respawnStep rx P.screenH st i) i).1,
    (respawnStep_grid rx P.screenH st i).1]

theorem pass1Particle_nextP (P : SimParams) (rx : ℕ → ℚ) (st : SimState) (i : ℕ) :
    (pass1Particle P rx st i).nextP =
      if inGrid P (cellOf ((pass1Particle P rx st i).x i) ((pass1Particle P rx st i).y i)) then
        Function.update st.nextP i
          (st.gridHead
            (cellIdx P (cellOf ((pass1Particle P rx st i).x i) ((pass1Particle P rx st i).y i))))
      else st.nextP := by
  rw [(pass1Particle_x_self_eq P rx st i).1, (pass1Particle_x_self_eq P rx st i).2]
  unfold pass1Particle pass1Integrate
  rw [gridInsert_nextP]
  rw [(integMove_grid P (respawnStep rx P.screenH st i) i).1,
    (integMove_grid P (respawnStep rx P.screenH st i) i).2,
    (respawnStep_grid rx P.screenH st i).1, (respawnStep_grid rx P.screenH st i).2]

/-! ### chainList helpers -/

theorem chainList_neg_one (next : ℕ → ℤ) (fuel : ℕ) : chainList next fuel (-1) = [] := by
  cases fuel <;> simp [chainList]

theorem chainList_congr {next next' : ℕ → ℤ} :
    ∀ {fuel : ℕ} {h : ℤ},
      (∀ j, j ∈ chainList next fuel h → next' j = next j) →
      chainList next' fuel h = chainList next fuel h := by
  intro fuel
  induction fuel with
  | zero => intro h _; rfl
  | succ fuel ih =>
    intro h hag
    by_cases hh : h = -1
    · simp [chainList, hh]
    · simp only [chainList, if_neg hh]
      have hmem : h.toNat ∈ chainList next (fuel + 1) h := by
        simp [chainList, if_neg hh]
      rw [hag h.toNat hmem]
      rw [ih (fun j hj => hag j (by simp [chainList, if_neg hh, hj]))]

theorem chainList_mem_mono {next : ℕ → ℤ} :
    ∀ {fuel fuel' : ℕ} {h : ℤ} {j : ℕ}, fuel ≤ fuel' →
      j ∈ chainList next fuel h → j ∈ chainList next fuel' h := by
  intro fuel
  induction fuel with
  | zero => intro fuel' h j _ hj; simp [chainList] at hj
  | succ fuel ih =>
    intro fuel' h j hle hj
    obtain ⟨f', rfl⟩ : ∃ f', fuel' = f' + 1 :=
      ⟨fuel' - 1, by omega⟩
    by_cases hh : h = -1
    · simp [chainList, hh] at hj
    · simp only [chainList, if_neg hh] at hj ⊢
      rcases List.mem_cons.mp hj with hj | hj
      · exact List.mem_cons.mpr (Or.inl hj)
      · exact List.mem_cons.mpr (Or.inr (ih (by omega) hj))

end DesertSim

namespace DesertSim

/-- Structure of the grid after the Pass-1 fold over particles `0..k-1`
starting from a cleared grid: every chain element is a processed index,
chains are already stable at fuel `k`, and a processed particle is on a
cell's chain exactly when that cell is the in-grid cell of its
post-resolution position. -/
theorem pass1_fold_grid (P : SimParams) (rx : ℕ → ℚ) :
    ∀ (k : ℕ) (st0 : SimState), st0.gridHead = (fun _ => (-1 : ℤ)) →
      ∀ A, A = (List.range k).foldl (pass1Particle P rx) st0 →
        (∀ c fuel j, j ∈ chainList A.nextP fuel (A.gridHead c) → j < k) ∧
        (∀ c fuel, k ≤ fuel →
          chainList A.nextP fuel (A.gridHead c) = chainList A.nextP k (A.gridHead c)) ∧
        (∀ c j, j < k →
          (j ∈ chainList A.nextP k (A.gridHead c) ↔
            inGrid P (cellOf (A.x j) (A.y j)) ∧ c = cellIdx P (cellOf (A.x j) (A.y j)))) := by
  intro k
  induction k with
  | zero =>
    intro st0 hclear A hA
    have hA0 : A = st0 := by rw [hA]; rfl
    subst hA0
    refine ⟨?_, ?_, ?_⟩
    · intro c fuel j hj
      simp [hclear, chainList_neg_one] at hj
    · intro c fuel _
      simp [hclear, chainList_neg_one]
    · intro c j hj
      omega
  | succ k ih =>
    intro st0 hclear A' hA'
    set A := (List.range k).foldl (pass1Particle P rx) st0 with hA
    obtain ⟨IH1, IH2, IH3⟩ := ih st0 hclear A hA
    have hB : A' = pass1Particle P rx A k := by
      rw [hA', foldl_range_succ, ← hA]
    have hx : ∀ j, j ≠ k → A'.x j = A.x j := fun j hj => by
      rw [hB]; exact pass1Particle_x_other hj
    have hy : ∀ j, j ≠ k → A'.y j = A.y j := fun j hj => by
      rw [hB]; exact pass1Particle_y_other hj
    have hgh := pass1Particle_gridHead P rx A k
    have hnp := pass1Particle_nextP P rx A k
    rw [← hB] at hgh hnp
    set c₀ := cellOf (A'.x k) (A'.y k) with hc₀
    by_cases hin : inGrid P c₀
    · -- the particle is inserted into cell `cellIdx P c₀`
      rw [if_pos hin] at hgh hnp
      have hcong : ∀ (fuel : ℕ) (h : ℤ),
          (∀ j, j ∈ chainList A.nextP fuel h → j < k) →
          chainList A'.nextP fuel h = chainList A.nextP fuel h := by
        intro fuel h hb
        rw [hnp]
        exact chainList_congr (fun j hj => Function.update_noteq (Nat.ne_of_lt (hb j hj)) _ _)
      have hchain : ∀ fuel : ℕ,
          chainList A'.nextP (fuel + 1) (A'.gridHead (cellIdx P c₀)) =
            k :: chainList A.nextP fuel (A.gridHead (cellIdx P c₀)) := by
        intro fuel
        have h1 : A'.gridHead (cellIdx P c₀) = (k : ℤ) := by
          rw [hgh, Function.update_same]
        rw [h1]
        simp only [chainList, if_neg (by omega : ¬((k : ℤ) = -1)), Int.toNat_natCast]
        have h3 : A'.nextP k = A.gridHead (cellIdx P c₀) := by
          rw [hnp, Function.update_same]
        rw [h3, hcong fuel _ (IH1 (cellIdx P c₀) fuel)]
      refine ⟨?_, ?_, ?_⟩
      · -- chain elements are processed indices
        intro c fuel j hj
        by_cases hc : c = cellIdx P c₀
        · subst hc
          cases fuel with
          | zero => simp [chainList] at hj
          | succ fuel =>
            rw [hchain fuel] at hj
            rcases List.mem_cons.mp hj with heq | hj
            · omega
            · exact Nat.lt_succ_of_lt (IH1 _ fuel j hj)
        · have hhead : A'.gridHead c = A.gridHead c := by
            rw [hgh, Function.update_noteq hc]
          rw [hhead, hcong fuel _ (IH1 c fuel)] at hj
          exact Nat.lt_succ_of_lt (IH1 c fuel j hj)
      · -- stabilisation at fuel `k + 1`
        intro c fuel hf
        by_cases hc : c = cellIdx P c₀
        · subst hc
          obtain ⟨m, rfl⟩ : ∃ m, fuel = m + 1 := ⟨fuel - 1, by omega⟩
          rw [hchain m, hchain k, IH2 _ m (by omega)]
        · have hhead : A'.gridHead c = A.gridHead c := by
            rw [hgh, Function.update_noteq hc]
          rw [hhead, hcong fuel _ (IH1 c fuel), hcong (k + 1) _ (IH1 c (k + 1)),
            IH2 c fuel (by omega), IH2 c (k + 1) (by omega)]
      · -- membership characterisation
        intro c j hj
        rcases Nat.lt_succ_iff_lt_or_eq.mp hj with hlt | heq
        · rw [hx j (Nat.ne_of_lt hlt), hy j (Nat.ne_of_lt hlt)]
          by_cases hc : c = cellIdx P c₀
          · subst hc
            rw [hchain k, List.mem_cons]
            constructor
            · rintro (heq | hmem)
              · omega
              · exact (IH3 _ j hlt).mp hmem
            · intro hrhs
              exact Or.inr ((IH3 _ j hlt).mpr hrhs)
          · have hhead : A'.gridHead c = A.gridHead c := by
              rw [hgh, Function.update_noteq hc]
            rw [hhead, hcong (k + 1) _ (IH1 c (k + 1)), IH2 c (k + 1) (Nat.le_succ k)]
            exact IH3 c j hlt
        · rw [heq]
          by_cases hc : c = cellIdx P c₀
          · subst hc
            rw [hchain k, List.mem_cons]
            constructor
            · intro _
              exact ⟨hin, rfl⟩
            · intro _
              exact Or.inl rfl
          · have hhead : A'.gridHead c = A.gridHead c := by
              rw [hgh, Function.update_noteq hc]
            rw [hhead, hcong (k + 1) _ (IH1 c (k + 1))]
            constructor
            · intro hmem
              exact absurd (IH1 c (k + 1) k hmem) (lt_irrefl k)
            · rintro ⟨h1, h2⟩
              exact absurd h2 hc
    · -- the computed cell is outside the grid: nothing is inserted
      rw [if_neg hin] at hgh hnp
      refine ⟨?_, ?_, ?_⟩
      · intro c fuel j hj
        rw [hgh, hnp] at hj
        exact Nat.lt_succ_of_lt (IH1 c fuel j hj)
      · intro c fuel hf
        rw [hgh, hnp, IH2 c fuel (by omega), IH2 c (k + 1) (by omega)]
      · intro c j hj
        rw [hgh, hnp]
        rcases Nat.lt_succ_iff_lt_or_eq.mp hj with hlt | heq
        · rw [hx j (Nat.ne_of_lt hlt), hy j (Nat.ne_of_lt hlt),
            IH2 c (k + 1) (Nat.le_succ k)]
          exact IH3 c j hlt
        · rw [heq]
          constructor
          · intro hmem
            rw [IH2 c (k + 1) (Nat.le_succ k)] at hmem
            exact absurd (IH1 c k k hmem) (lt_irrefl k)
          · rintro ⟨h1, h2⟩
            exact absurd h1 hin

end DesertSim

namespace DesertSim

/-! ## Bounded neighbour traversal (C8) -/

theorem chainList_length_le (next : ℕ → ℤ) :
    ∀ (fuel : ℕ) (h : ℤ), (chainList next fuel h).length ≤ fuel := by
  intro fuel
  induction fuel with
  | zero => intro h; simp [chainList]
  | succ fuel ih =>
    intro h
    by_cases hh : h = -1
    · simp [chainList, hh]
    · simp only [chainList, if_neg hh, List.length_cons]
      exact Nat.succ_le_succ (ih (next h.toNat))

theorem neighborCells_length_le (P : SimParams) (cx cy : ℤ) :
    (neighborCells P cx cy).length ≤ 9 := by
  unfold neighborCells
  have hf : ∀ dy : ℤ,
      (([-1, 0, 1] : List ℤ).filterMap fun dx =>
        if inGrid P (cx + dx, cy + dy) then some (cellIdx P (cx + dx, cy + dy))
        else none).length ≤ 3 := by
    intro dy
    calc (([-1, 0, 1] : List ℤ).filterMap fun dx =>
          if inGrid P (cx + dx, cy + dy) then some (cellIdx P (cx + dx, cy + dy))
          else none).length
        ≤ ([-1, 0, 1] : List ℤ).length := List.length_filterMap_le _ _
      _ = 3 := rfl
  rw [show ([-1, 0, 1] : List ℤ) = -1 :: 0 :: 1 :: [] from rfl]
  rw [List.flatMap_cons, List.flatMap_cons, List.flatMap_cons, List.flatMap_nil,
    List.append_nil, List.length_append, List.length_append]
  have h1 := hf (-1)
  have h2 := hf 0
  have h3 := hf 1
  omega

theorem pass2Candidates_le (P : SimParams) (st : SimState) (i : ℕ) :
    pass2Candidates P st i ≤ 450 := by
  unfold pass2Candidates
  have hmem : ∀ m ∈ (neighborCells P (cellOf (st.x i) (st.y i)).1
      (cellOf (st.x i) (st.y i)).2).map
      (fun cell => (chainList st.nextP 50 (st.gridHead cell)).length), m ≤ 50 := by
    intro m hm
    obtain ⟨cell, _, rfl⟩ := List.mem_map.mp hm
    exact chainList_length_le st.nextP 50 _
  calc ((neighborCells P (cellOf (st.x i) (st.y i)).1 (cellOf (st.x i) (st.y i)).2).map
        (fun cell => (chainList st.nextP 50 (st.gridHead cell)).length)).sum
      ≤ ((neighborCells P (cellOf (st.x i) (st.y i)).1 (cellOf (st.x i) (st.y i)).2).map
        (fun cell => (chainList st.nextP 50 (st.gridHead cell)).length)).length * 50 := by
        exact List.sum_le_card_nsmul _ 50 hmem
    _ ≤ 9 * 50 := by
        rw [List.length_map]
        exact Nat.mul_le_mul_right 50 (neighborCells_length_le P _ _)
    _ = 450 := rfl

end DesertSim

namespace DesertSim

/-! ## Claim theorems -/

/-- C1 (amended): after Pass 1 of each tick (grid rebuild, integration and
boundary resolution), every particle whose diameter fits the screen has
`radius ≤ x ≤ screenW - radius` and `radius ≤ y ≤ screenH - radius`.  The
claim as stated — the same bounds at the end of the tick, after Pass 2 —
is false: Pass 2's positional correction moves particles after the
boundary clamp and can push one out of bounds (see the counterexample). -/
theorem C1_pass1_bounds (P : SimParams) (rx : ℕ → ℚ) (st : SimState)
    (hr : ∀ i, i < P.n → 2 * st.radius i ≤ min P.screenW P.screenH) :
    ∀ i, i < P.n →
      st.radius i ≤ (tickPass1 P rx st).x i ∧
        (tickPass1 P rx st).x i ≤ P.screenW - st.radius i ∧
        st.radius i ≤ (tickPass1 P rx st).y i ∧
        (tickPass1 P rx st).y i ≤ P.screenH - st.radius i := by
  intro i hi
  have hW : 2 * (clearGrid st).radius i ≤ P.screenW :=
    le_trans (hr i hi) (min_le_left _ _)
  have hH : 2 * (clearGrid st).radius i ≤ P.screenH :=
    le_trans (hr i hi) (min_le_right _ _)
  have h := pass1_fold_bounds P rx P.n (clearGrid st) i hi hW hH
  exact ⟨h.1.1, h.1.2, h.2.1, h.2.2⟩

/-- C3: immediately after Pass 1 (integration, boundary resolution, grid
insertion), a particle with finite pre-tick state whose diameter fits the
screen satisfies `radius ≤ x ≤ screenW - radius` and
`radius ≤ y ≤ screenH - radius`. -/
theorem C3_pass1_bounds (P : SimParams) (rx : ℕ → ℚ) (st : SimState) (i : ℕ)
    (hn : i < P.n) (hf : st.finPos i = true)
    (hr : 2 * st.radius i ≤ min P.screenW P.screenH) :
    st.radius i ≤ (tickPass1 P rx st).x i ∧
      (tickPass1 P rx st).x i ≤ P.screenW - st.radius i ∧
      st.radius i ≤ (tickPass1 P rx st).y i ∧
      (tickPass1 P rx st).y i ≤ P.screenH - st.radius i := by
  have h := pass1_fold_bounds P rx P.n (clearGrid st) i hn
    (le_trans hr (min_le_left _ _)) (le_trans hr (min_le_right _ _))
  exact ⟨h.1.1, h.1.2, h.2.1, h.2.2⟩

/-- C2 (amended): after Pass 1's hard clamp, every particle satisfies
`|vx| ≤ MAX_VEL` and `|vy| ≤ MAX_VEL` (boundary reflection only shrinks a
component).  The claim as stated — the same bound at the end of the tick —
is false: Pass 2's collision impulse is applied after the clamp and can
push a component past `MAX_VEL` (see the counterexample). -/
theorem C2_pass1_vel_bounds (P : SimParams) (rx : ℕ → ℚ) (st : SimState) (i : ℕ)
    (hn : i < P.n) :
    (-MAX_VEL ≤ (tickPass1 P rx st).vx i ∧ (tickPass1 P rx st).vx i ≤ MAX_VEL) ∧
      -MAX_VEL ≤ (tickPass1 P rx st).vy i ∧ (tickPass1 P rx st).vy i ≤ MAX_VEL :=
  pass1_fold_vel_bounds P rx P.n (clearGrid st) i hn

/-- C5 (amended): in Pass 2, a candidate pair `(i, j)` with `j ≠ i` is
treated as overlapping — the 50/50 positional correction along the contact
normal is applied — exactly when `0.001 < distSq < (r_i + r_j)^2`; the code
compares `distSq` against the epsilon `0.001`, not `0` as the claim
states. -/
theorem C5_overlap_window (P : SimParams) (st : SimState) (i j : ℕ) (hij : i ≠ j)
    (dSq rSum : ℚ)
    (hd : dSq = (st.x i - st.x j) * (st.x i - st.x j) + (st.y i - st.y j) * (st.y i - st.y j))
    (hr : rSum = st.radius i + st.radius j) :
    (¬(1 / 1000 < dSq ∧ dSq < rSum * rSum) → pairStep P st i j = st) ∧
      ((1 / 1000 < dSq ∧ dSq < rSum * rSum) →
        (pairStep P st i j).x i =
            st.x i + (st.x i - st.x j) / P.sqrtFn dSq * (rSum - P.sqrtFn dSq) * (1 / 2) ∧
          (pairStep P st i j).x j =
            st.x j - (st.x i - st.x j) / P.sqrtFn dSq * (rSum - P.sqrtFn dSq) * (1 / 2) ∧
          (pairStep P st i j).y i =
            st.y i + (st.y i - st.y j) / P.sqrtFn dSq * (rSum - P.sqrtFn dSq) * (1 / 2) ∧
          (pairStep P st i j).y j =
            st.y j - (st.y i - st.y j) / P.sqrtFn dSq * (rSum - P.sqrtFn dSq) * (1 / 2)) := by
  subst hd hr
  constructor
  · intro hn
    exact pairStep_no_action P st i j (Or.inr fun hg => hn ⟨hg.2, hg.1⟩)
  · intro hp
    exact pairStep_correction P st i j hij ⟨hp.2, hp.1⟩

/-- C6 (amended): the respawn check consults only the finiteness of the
stored position: when `x` or `y` is non-finite the particle is respawned at
`(random x, screenH - 50)` with zero velocity, and otherwise — including
when only a velocity component is non-finite — it is left untouched.  The
claim as stated, that a non-finite velocity also triggers the respawn, is
false (see the counterexample). -/
theorem C6_respawn_characterisation :
    ∀ (r H : ℚ) (q : RawParticle),
      ((q.xFin && q.yFin) = false →
        respawnCheck r H q =
          { x := r, y := H - 50, vx := 0, vy := 0
            xFin := true, yFin := true, vxFin := true, vyFin := true }) ∧
      ((q.xFin && q.yFin) = true → respawnCheck r H q = q) := by
  intro r H q
  cases hx : q.xFin <;> cases hy : q.yFin <;> simp_all [respawnCheck]

/-- C7: after the grid rebuild completed by Pass 1, a particle whose
computed cell lies inside `[0, gridW) x [0, gridH)` is reachable from
exactly one `gridHead` entry via `nextParticle` (the entry of its own
cell), and a particle whose computed cell lies outside the grid appears in
no cell's list.  (In the model every post-Pass-1 position is finite: a
non-finite stored position is respawned to a finite one before
insertion.) -/
theorem C7_grid_membership (P : SimParams) (rx : ℕ → ℚ) (st : SimState) (i : ℕ)
    (hn : i < P.n) :
    (inGrid P (cellOf ((tickPass1 P rx st).x i) ((tickPass1 P rx st).y i)) →
      ∀ c : ℕ,
        (i ∈ chainList (tickPass1 P rx st).nextP P.n ((tickPass1 P rx st).gridHead c) ↔
          c = cellIdx P (cellOf ((tickPass1 P rx st).x i) ((tickPass1 P rx st).y i)))) ∧
    (¬ inGrid P (cellOf ((tickPass1 P rx st).x i) ((tickPass1 P rx st).y i)) →
      ∀ c : ℕ,
        i ∉ chainList (tickPass1 P rx st).nextP P.n ((tickPass1 P rx st).gridHead c)) := by
  obtain ⟨H1, H2, H3⟩ :=
    pass1_fold_grid P rx P.n (clearGrid st) rfl (tickPass1 P rx st) rfl
  constructor
  · intro hin c
    rw [H3 c i hn]
    constructor
    · intro h
      exact h.2
    · intro h
      exact ⟨hin, h⟩
  · intro hnin c hmem
    exact hnin ((H3 c i hn).mp hmem).1

/-- C8: in Pass 2 each of the up-to-9 neighbour cells is walked with the
50-entry cap (`iterations < 50`), so the walk always terminates — in the
model `chainList` consumes its fuel structurally — visiting at most 50
entries per cell, and a particle examines at most `9 * 50 = 450` collision
candidates per tick. -/
theorem C8_bounded_scan (P : SimParams) (st : SimState) (i : ℕ) :
    (∀ cell ∈ neighborCells P (cellOf (st.x i) (st.y i)).1 (cellOf (st.x i) (st.y i)).2,
      (chainList st.nextP 50 (st.gridHead cell)).length ≤ 50) ∧
    (neighborCells P (cellOf (st.x i) (st.y i)).1 (cellOf (st.x i) (st.y i)).2).length ≤ 9 ∧
    pass2Candidates P st i ≤ 450 :=
  ⟨fun cell _ => chainList_length_le st.nextP 50 _,
    neighborCells_length_le P _ _,
    pass2Candidates_le P st i⟩

/-- C9: one application of the Pass-2 pair resolution conserves the
pairwise velocity sums `vx_i + vx_j` and `vy_i + vy_j` (the impulse is
symmetric), and the positional correction leaves the pair midpoint
`((x_i + x_j)/2, (y_i + y_j)/2)` unchanged. -/
theorem C9_pair_conservation (P : SimParams) (st : SimState) (i j : ℕ) (hij : i ≠ j) :
    (pairStep P st i j).vx i + (pairStep P st i j).vx j = st.vx i + st.vx j ∧
      (pairStep P st i j).vy i + (pairStep P st i j).vy j = st.vy i + st.vy j ∧
      ((pairStep P st i j).x i + (pairStep P st i j).x j) / 2 = (st.x i + st.x j) / 2 ∧
      ((pairStep P st i j).y i + (pairStep P st i j).y j) / 2 = (st.y i + st.y j) / 2 := by
  obtain ⟨h1, h2, h3, h4⟩ := pairStep_conserve P st i j hij
  exact ⟨h1, h2, by rw [h3], by rw [h4]⟩

/-- C10: with every particle position finite at the start of a tick, the
tick is independent of the randomness oracle — the random respawn `x` is
reachable only through the non-finite-position branch — and the tick never
writes `radius`; with the hand snapshot and screen extent fixed as
parameters, the post-tick arrays are therefore a deterministic function of
the pre-tick arrays. -/
theorem C10_deterministic (P : SimParams) (r1 r2 : ℕ → ℚ) (st : SimState)
    (h : ∀ i, i < P.n → st.finPos i = true) :
    tick P r1 st = tick P r2 st ∧ (tick P r1 st).radius = st.radius :=
  ⟨tick_randX P r1 r2 st h, tick_radius P r1 st⟩

end DesertSim

namespace DesertSim

/-! ## Counterexamples and witnesses on the concrete runs

`Rat.add`/`Rat.mul`/`Rat.inv`/`Rat.sub` are `irreducible` in Mathlib; the
runs below evaluate the tick by kernel reduction, so their reducibility is
restored locally. -/

section ConcreteRuns

attribute [local semireducible] Rat.add Rat.mul Rat.inv Rat.sub
set_option maxRecDepth 100000
set_option maxHeartbeats 8000000

/-- C1 counterexample: a two-particle pre-tick state that satisfies the
claimed invariant (positions within `[radius, screen - radius]`, zero
velocities), where one full tick ends with particle 0 at `x = 2 < radius`:
Pass 2's positional correction pushes the wall-clamped particle back out of
bounds.  The only square root the run extracts is `sqrt 16 = 4`, on which
`ratSqrt` is exact. -/
theorem C1_counterexample :
    cexStateC1.radius 0 = 3 ∧ cexStateC1.radius 1 = 3 ∧
      (3 ≤ cexStateC1.x 0 ∧ cexStateC1.x 0 ≤ 117 ∧ 3 ≤ cexStateC1.x 1 ∧ cexStateC1.x 1 ≤ 117) ∧
      (3 ≤ cexStateC1.y 0 ∧ cexStateC1.y 0 ≤ 117 ∧ 3 ≤ cexStateC1.y 1 ∧ cexStateC1.y 1 ≤ 117) ∧
      (cexStateC1.vx 0 = 0 ∧ cexStateC1.vx 1 = 0 ∧ cexStateC1.vy 0 = 0 ∧ cexStateC1.vy 1 = 0) ∧
      ratSqrt 16 = 4 ∧ ratSqrt 16 * ratSqrt 16 = 16 ∧
      (tick cexParams zeroRand cexStateC1).x 0 < 3 := by
  decide

/-- C2 counterexample: a two-particle pre-tick state with every velocity
component within `±MAX_VEL` and every position in bounds, where one full
tick ends with `vx 0 = 303.8 > MAX_VEL = 250`: Pass 2's impulse is applied
after Pass 1's clamp.  The only square root the run extracts is
`sqrt (25/4) = 5/2`, on which `ratSqrt` is exact. -/
theorem C2_counterexample :
    (cexStateC2.vx 0 = 250 ∧ cexStateC2.vx 1 = 250 ∧
        cexStateC2.vy 0 = -(1 / 2) ∧ cexStateC2.vy 1 = 499 / 2) ∧
      (3 ≤ cexStateC2.x 0 ∧ cexStateC2.x 0 ≤ 117 ∧ 3 ≤ cexStateC2.x 1 ∧ cexStateC2.x 1 ≤ 117) ∧
      (3 ≤ cexStateC2.y 0 ∧ cexStateC2.y 0 ≤ 117 ∧ 3 ≤ cexStateC2.y 1 ∧ cexStateC2.y 1 ≤ 117) ∧
      ratSqrt (25 / 4) = 5 / 2 ∧ ratSqrt (25 / 4) * ratSqrt (25 / 4) = 25 / 4 ∧
      MAX_VEL < (tick cexParams zeroRand cexStateC2).vx 0 := by
  decide

/-- C5 counterexample: a resting pair at squared distance `1/2000` — which
satisfies the claim's window `0 < distSq < (r_i + r_j)^2` — on which the
pair resolution applies no positional correction and no impulse at all,
because the code requires `distSq > 0.001`. -/
theorem C5_counterexample :
    (cexStateC5.x 0 - cexStateC5.x 1) * (cexStateC5.x 0 - cexStateC5.x 1) +
          (cexStateC5.y 0 - cexStateC5.y 1) * (cexStateC5.y 0 - cexStateC5.y 1) = 1 / 2000 ∧
      (0 : ℚ) < 1 / 2000 ∧
      (1 / 2000 : ℚ) <
        (cexStateC5.radius 0 + cexStateC5.radius 1) * (cexStateC5.radius 0 + cexStateC5.radius 1) ∧
      (pairStep cexParams cexStateC5 0 1).x 0 = cexStateC5.x 0 ∧
      (pairStep cexParams cexStateC5 0 1).x 1 = cexStateC5.x 1 ∧
      (pairStep cexParams cexStateC5 0 1).y 0 = cexStateC5.y 0 ∧
      (pairStep cexParams cexStateC5 0 1).y 1 = cexStateC5.y 1 ∧
      (pairStep cexParams cexStateC5 0 1).vx 0 = cexStateC5.vx 0 ∧
      (pairStep cexParams cexStateC5 0 1).vx 1 = cexStateC5.vx 1 ∧
      (pairStep cexParams cexStateC5 0 1).vy 0 = cexStateC5.vy 0 ∧
      (pairStep cexParams cexStateC5 0 1).vy 1 = cexStateC5.vy 1 := by
  decide

/-- C6 counterexample: a stored particle with finite position but a
non-finite `vx` float is not respawned by the check of lines 213-219: its
position and velocity fields are left untouched, so its velocity is neither
zeroed nor made finite. -/
theorem C6_counterexample :
    cexRawC6.xFin = true ∧ cexRawC6.yFin = true ∧ cexRawC6.vxFin = false ∧
      respawnCheck 5 120 cexRawC6 = cexRawC6 ∧
      (respawnCheck 5 120 cexRawC6).vx ≠ 0 ∧
      (respawnCheck 5 120 cexRawC6).vxFin = false := by
  decide

/-- C1 witness: the amended Pass-1 bound evaluated on the one-particle
run. -/
theorem C1_witness :
    witState.radius 0 ≤ (tickPass1 witParams zeroRand witState).x 0 ∧
      (tickPass1 witParams zeroRand witState).x 0 ≤ witParams.screenW - witState.radius 0 ∧
      witState.radius 0 ≤ (tickPass1 witParams zeroRand witState).y 0 ∧
      (tickPass1 witParams zeroRand witState).y 0 ≤ witParams.screenH - witState.radius 0 :=
  C1_pass1_bounds witParams zeroRand witState
    (fun i hi => by
      have h0 : i = 0 := Nat.lt_one_iff.mp hi
      subst h0
      decide)
    0 (by decide)

/-- C2 witness: the amended Pass-1 velocity bound evaluated on the
one-particle run. -/
theorem C2_witness :
    (-MAX_VEL ≤ (tickPass1 witParams zeroRand witState).vx 0 ∧
        (tickPass1 witParams zeroRand witState).vx 0 ≤ MAX_VEL) ∧
      -MAX_VEL ≤ (tickPass1 witParams zeroRand witState).vy 0 ∧
        (tickPass1 witParams zeroRand witState).vy 0 ≤ MAX_VEL :=
  C2_pass1_vel_bounds witParams zeroRand witState 0 (by decide)

/-- C3 witness: the Pass-1 position bound evaluated on particle 1 of the
two-particle run. -/
theorem C3_witness :
    cexStateC1.radius 1 ≤ (tickPass1 cexParams zeroRand cexStateC1).x 1 ∧
      (tickPass1 cexParams zeroRand cexStateC1).x 1 ≤ cexParams.screenW - cexStateC1.radius 1 ∧
      cexStateC1.radius 1 ≤ (tickPass1 cexParams zeroRand cexStateC1).y 1 ∧
      (tickPass1 cexParams zeroRand cexStateC1).y 1 ≤ cexParams.screenH - cexStateC1.radius 1 :=
  C3_pass1_bounds cexParams zeroRand cexStateC1 1 (by decide) (by decide) (by decide)

/-- C4 witness: an open palm at the top-left corner acting on a particle at
offset `(30, 40)` — distance 50, `sqrt 2500 = 50` exactly — produces the
stated radial acceleration component. -/
theorem C4_witness :
    (handStep cexParams witHand 30 40 ⟨0, 0, 0, 30⟩).ax - (Accum.mk 0 0 0 30).ax =
      INTERACTION_FORCE * (1 - 50 / HAND_RADIUS) / 50 * 30 :=
  (((handStep_force cexParams witHand 30 40 ⟨0, 0, 0, 30⟩ 30 40 50
      (by decide) (by decide) (by decide) (by decide) (by decide) (by decide)).1 rfl).1).1

/-- C5 witness: the overlap-window characterisation evaluated on a
non-overlapping concrete pair: the pair resolution leaves the state
untouched. -/
theorem C5_witness : pairStep cexParams cexStateC2 0 1 = cexStateC2 :=
  (C5_overlap_window cexParams cexStateC2 0 1 (by decide) _ _ rfl rfl).1 (by decide)

/-- C7 witness: the grid-membership characterisation evaluated on the
one-particle run. -/
theorem C7_witness :
    (inGrid witParams
        (cellOf ((tickPass1 witParams zeroRand witState).x 0)
          ((tickPass1 witParams zeroRand witState).y 0)) →
      ∀ c : ℕ,
        (0 ∈ chainList (tickPass1 witParams zeroRand witState).nextP witParams.n
            ((tickPass1 witParams zeroRand witState).gridHead c) ↔
          c = cellIdx witParams
            (cellOf ((tickPass1 witParams zeroRand witState).x 0)
              ((tickPass1 witParams zeroRand witState).y 0)))) ∧
    (¬ inGrid witParams
        (cellOf ((tickPass1 witParams zeroRand witState).x 0)
          ((tickPass1 witParams zeroRand witState).y 0)) →
      ∀ c : ℕ,
        0 ∉ chainList (tickPass1 witParams zeroRand witState).nextP witParams.n
          ((tickPass1 witParams zeroRand witState).gridHead c)) :=
  C7_grid_membership witParams zeroRand witState 0 (by decide)

/-- C9 witness: pairwise conservation evaluated on the overlapping pair of
the C1 run. -/
theorem C9_witness :
    (pairStep cexParams cexStateC1 0 1).vx 0 + (pairStep cexParams cexStateC1 0 1).vx 1 =
        cexStateC1.vx 0 + cexStateC1.vx 1 ∧
      (pairStep cexParams cexStateC1 0 1).vy 0 + (pairStep cexParams cexStateC1 0 1).vy 1 =
        cexStateC1.vy 0 + cexStateC1.vy 1 ∧
      ((pairStep cexParams cexStateC1 0 1).x 0 + (pairStep cexParams cexStateC1 0 1).x 1) / 2 =
        (cexStateC1.x 0 + cexStateC1.x 1) / 2 ∧
      ((pairStep cexParams cexStateC1 0 1).y 0 + (pairStep cexParams cexStateC1 0 1).y 1) / 2 =
        (cexStateC1.y 0 + cexStateC1.y 1) / 2 :=
  C9_pair_conservation cexParams cexStateC1 0 1 (by decide)

/-- C10 witness: two different randomness oracles produce the same tick on
the one-particle run, whose positions are all finite. -/
theorem C10_witness :
    tick witParams (fun _ => 7) witState = tick witParams (fun _ => 9) witState ∧
      (tick witParams (fun _ => 7) witState).radius = witState.radius :=
  C10_deterministic witParams (fun _ => 7) (fun _ => 9) witState (fun _ _ => rfl)

end ConcreteRuns

end DesertSim
